import Mathlib

/-!
Shallow embedding of the Sparkify data-lake ETL (`etl.py`) and proofs of the
specification claims about it.

The source is a PySpark batch pipeline with two transformation functions:
`process_song_data` (catalog records to the songs/artists dimensions) and
`process_log_data` (event records to the users/time dimensions and the
songplays fact table).  DataFrames are modelled as Lean lists of records,
`dropDuplicates` as a first-occurrence deduplication, the inner join as a
filtered product, `monotonically_increasing_id` by Spark's documented
partition encoding, and the per-row timestamp udf as a pure function from
epoch milliseconds to a civil calendar decomposition under a fixed
timezone-offset policy (the source uses `datetime.fromtimestamp`, i.e. one
fixed system timezone per run, modelled as the offset parameter `tz`).
Fields the pipeline only ever projects (durations, geo coordinates, raw
string columns) are carried as opaque strings.
-/

namespace ETL

/-- A catalog (song data) record, with the fields `etl.py` reads.  Columns the
pipeline never computes on are kept as raw strings; the optional geo fields
are `Option` to model JSON nulls. -/
structure SongRecord where
  song_id : String
  title : String
  artist_id : String
  year : Int
  duration : String
  artist_name : String
  artist_location : String
  artist_latitude : Option String
  artist_longitude : Option String
  deriving DecidableEq, Repr

/-- An event (log data) record, with the fields `etl.py` reads.  `ts` is the
raw JSON token (absent field modelled as `none`); `artist` and `song` are
nullable. -/
structure LogRecord where
  page : String
  userId : String
  firstName : String
  lastName : String
  gender : String
  level : String
  ts : Option String
  artist : Option String
  song : Option String
  sessionId : String
  loc : String
  userAgent : String
  deriving DecidableEq, Repr

/-- Parse a decimal integer the way Python's `int` does on the udf input:
an optional sign followed by at least one digit; anything else (including a
missing value) fails. -/
def parseDigits : List Char → Option Nat
  | [] => none
  | cs => cs.foldlM (fun acc c => if c.isDigit then some (acc * 10 + (c.toNat - 48)) else none) 0

/-- Python `int(x)` applied to the raw `ts` token; `none` models the udf
raising (`TypeError` on a missing field, `ValueError` on a non-integer). -/
def parsePyInt : Option String → Option Int
  | none => none
  | some s =>
    match s.toList with
    | '-' :: rest => (parseDigits rest).map (fun n => -(n : Int))
    | '+' :: rest => (parseDigits rest).map (fun n => (n : Int))
    | cs => (parseDigits cs).map (fun n => (n : Int))

/-! ### Civil calendar conversion

`datetime.fromtimestamp(ms / 1000)` followed by Spark's `year`, `month`,
`dayofmonth`, `hour`, `weekofyear`, `dayofweek` on the rendered datetime.
The epoch-to-civil conversion is the standard proleptic Gregorian algorithm;
`weekofyear` is the ISO 8601 week of year and `dayofweek` is Spark's
1 = Sunday .. 7 = Saturday convention. -/

/-- Civil date (year, month, day) of a day count from 1970-01-01
(proleptic Gregorian). -/
def civilFromDays (z : Int) : Int × Int × Int :=
  let z' := z + 719468
  let era := Int.fdiv z' 146097
  let doe := z' - era * 146097
  let yoe := Int.fdiv (doe - Int.fdiv doe 1460 + Int.fdiv doe 36524 - Int.fdiv doe 146096) 365
  let y := yoe + era * 400
  let doy := doe - (365 * yoe + Int.fdiv yoe 4 - Int.fdiv yoe 100)
  let mp := Int.fdiv (5 * doy + 2) 153
  let d := doy - Int.fdiv (153 * mp + 2) 5 + 1
  let m := mp + (if mp < 10 then 3 else -9)
  (if m ≤ 2 then y + 1 else y, m, d)

/-- Day count from 1970-01-01 of a civil date (proleptic Gregorian). -/
def daysFromCivil (y m d : Int) : Int :=
  let y' := if m ≤ 2 then y - 1 else y
  let era := Int.fdiv y' 400
  let yoe := y' - era * 400
  let mp := Int.emod (m + 9) 12
  let doy := Int.fdiv (153 * mp + 2) 5 + d - 1
  let doe := yoe * 365 + Int.fdiv yoe 4 - Int.fdiv yoe 100 + doy
  era * 146097 + doe - 719468

/-- Seconds of the instant in the run's fixed timezone: floor of `ms / 1000`
plus the timezone offset `tz` in seconds. -/
def localSecs (tz ms : Int) : Int := Int.fdiv ms 1000 + tz

/-- Day count since the epoch of the instant, in the fixed timezone. -/
def epochDayOf (tz ms : Int) : Int := Int.fdiv (localSecs tz ms) 86400

/-- Second within the civil day of the instant. -/
def secsOfDayOf (tz ms : Int) : Int := Int.emod (localSecs tz ms) 86400

/-- Spark `hour` of the instant. -/
def hourOf (tz ms : Int) : Int := Int.fdiv (secsOfDayOf tz ms) 3600

/-- Spark `year` of the instant. -/
def yearOf (tz ms : Int) : Int := (civilFromDays (epochDayOf tz ms)).1

/-- Spark `month` of the instant. -/
def monthOf (tz ms : Int) : Int := (civilFromDays (epochDayOf tz ms)).2.1

/-- Spark `dayofmonth` of the instant. -/
def dayOf (tz ms : Int) : Int := (civilFromDays (epochDayOf tz ms)).2.2

/-- Spark `dayofweek`: 1 = Sunday .. 7 = Saturday (day 0, 1970-01-01, was a
Thursday, i.e. 5). -/
def weekdayOf (tz ms : Int) : Int := Int.emod (epochDayOf tz ms + 4) 7 + 1

/-- ISO weekday of a day count: 1 = Monday .. 7 = Sunday. -/
def isoWeekday (d : Int) : Int := Int.emod (d + 3) 7 + 1

/-- Gregorian leap-year test. -/
def isLeap (y : Int) : Bool :=
  (Int.emod y 4 == 0 && Int.emod y 100 != 0) || Int.emod y 400 == 0

/-- Number of ISO weeks in a year: 53 when January 1 falls on a Thursday, or
on a Wednesday of a leap year; otherwise 52. -/
def isoWeeksInYear (y : Int) : Int :=
  let jan1wd := isoWeekday (daysFromCivil y 1 1)
  if jan1wd = 4 ∨ (jan1wd = 3 ∧ isLeap y) then 53 else 52

/-- ISO 8601 week of year of a day count (Spark's `weekofyear`). -/
def isoWeekOfYear (d : Int) : Int :=
  let y := (civilFromDays d).1
  let doy := d - daysFromCivil y 1 1 + 1
  let w := Int.fdiv (doy - isoWeekday d + 10) 7
  if w < 1 then isoWeeksInYear (y - 1)
  else if w > isoWeeksInYear y then 1
  else w

/-- Spark `weekofyear` of the instant. -/
def weekOf (tz ms : Int) : Int := isoWeekOfYear (epochDayOf tz ms)

/-! ### Deduplication

Spark's `dropDuplicates(keys)` keeps one row per key value; modelled as
first-occurrence-wins over the list order, with an accumulator of keys
already seen. -/

/-- `dropDuplicates` worker: drop a row whose key was already seen. -/
def dedupByAux {α κ : Type} [DecidableEq κ] (key : α → κ) : List κ → List α → List α
  | _, [] => []
  | seen, x :: xs =>
    if key x ∈ seen then dedupByAux key seen xs
    else x :: dedupByAux key (key x :: seen) xs

/-- `dropDuplicates(keys)`: keep the first row carrying each key value. -/
def dedupBy {α κ : Type} [DecidableEq κ] (key : α → κ) (l : List α) : List α :=
  dedupByAux key [] l

/-! ### Catalog extractor (`process_song_data`) -/

/-- A row of the songs table: `df['song_id', 'title', 'artist_id', 'year',
'duration']`. -/
structure SongRow where
  song_id : String
  title : String
  artist_id : String
  year : Int
  duration : String
  deriving DecidableEq, Repr

/-- A row of the artists table: `df['artist_id', 'artist_name',
'artist_location', 'artist_latitude', 'artist_longitude']`. -/
structure ArtistRow where
  artist_id : String
  artist_name : String
  artist_location : String
  artist_latitude : Option String
  artist_longitude : Option String
  deriving DecidableEq, Repr

/-- Projection of a catalog record onto the songs columns. -/
def projSong (r : SongRecord) : SongRow :=
  ⟨r.song_id, r.title, r.artist_id, r.year, r.duration⟩

/-- Projection of a catalog record onto the artists columns. -/
def projArtist (r : SongRecord) : ArtistRow :=
  ⟨r.artist_id, r.artist_name, r.artist_location, r.artist_latitude, r.artist_longitude⟩

/-- `songs_table`: project then `dropDuplicates(['song_id'])`. -/
def songs_table (recs : List SongRecord) : List SongRow :=
  dedupBy (fun s => s.song_id) (recs.map projSong)

/-- `artists_table`: project then `dropDuplicates(['artist_id'])`. -/
def artists_table (recs : List SongRecord) : List ArtistRow :=
  dedupBy (fun a => a.artist_id) (recs.map projArtist)

/-- A parquet write: target path, `partitionBy` column names, and the rows
written. -/
structure Write (ρ : Type) where
  path : String
  partitionCols : List String
  rows : List ρ
  deriving DecidableEq, Repr

/-- `songs_table.write.partitionBy('year', 'artist_id').parquet(...)`. -/
def songsWrite (recs : List SongRecord) : Write SongRow :=
  ⟨"songs/songs.parquet", ["year", "artist_id"], songs_table recs⟩

/-- `artists_table.write.parquet(...)` (no `partitionBy`). -/
def artistsWrite (recs : List SongRecord) : Write ArtistRow :=
  ⟨"artists/artists.parquet", [], artists_table recs⟩

/-- `process_song_data`: read the catalog, emit the songs and artists
writes. -/
def process_song_data (recs : List SongRecord) : Write SongRow × Write ArtistRow :=
  (songsWrite recs, artistsWrite recs)

/-- The rows of a partitioned write that land in the directory of one
partition-key value: those whose key columns equal that value. -/
def partitionRows {ρ κ : Type} [DecidableEq κ] (key : ρ → κ) (k : κ) (w : Write ρ) : List ρ :=
  w.rows.filter (fun r => key r = k)

/-! ### Event extractor and fact builder (`process_log_data`) -/

/-- `df.filter(df.page == 'NextSong')`. -/
def filterNextSong (logs : List LogRecord) : List LogRecord :=
  logs.filter (fun r => r.page == "NextSong")

/-- A row of the users table: `df['userId', 'firstName', 'lastName',
'gender', 'level']`. -/
structure UserRow where
  userId : String
  firstName : String
  lastName : String
  gender : String
  level : String
  deriving DecidableEq, Repr

/-- Projection of an event record onto the users columns. -/
def projUser (r : LogRecord) : UserRow :=
  ⟨r.userId, r.firstName, r.lastName, r.gender, r.level⟩

/-- `users_table`: filter to NextSong, project, then
`dropDuplicates(['userId', 'level'])`. -/
def users_table (logs : List LogRecord) : List UserRow :=
  dedupBy (fun u => (u.userId, u.level)) ((filterNextSong logs).map projUser)

/-- An event after the two `withColumn` udfs: the record plus its parsed
epoch-millisecond timestamp (the derived `datetime` column renders exactly
this value, so `ms` represents it faithfully, including for equality). -/
structure Enriched where
  base : LogRecord
  ms : Int
  deriving DecidableEq, Repr

/-- Apply the timestamp udfs to one row; Python's `int` raising on a bad
`ts` is an `Except.error`, which fails the whole Spark job. -/
def enrichOne (r : LogRecord) : Except String Enriched :=
  match parsePyInt r.ts with
  | some m => .ok ⟨r, m⟩
  | none => .error "invalid ts"

/-- `withColumn('timestamp', ...)` / `withColumn('datetime', ...)` over the
filtered frame: every row goes through the udf, and one failure aborts. -/
def enrich : List LogRecord → Except String (List Enriched)
  | [] => .ok []
  | r :: rs =>
    match enrichOne r with
    | .error msg => .error msg
    | .ok e =>
      match enrich rs with
      | .error msg => .error msg
      | .ok es => .ok (e :: es)

/-- A row of the time table: the selected `datetime` column, `start_time`
(a verbatim copy of `datetime`), and the six decomposition columns.  The
two datetime-string columns are represented by the epoch milliseconds that
render them. -/
structure TimeRow where
  datetime : Int
  start_time : Int
  hour : Int
  day : Int
  week : Int
  month : Int
  year : Int
  weekday : Int
  deriving DecidableEq, Repr

/-- The time-table row derived from one enriched event under timezone
offset `tz`. -/
def mkTimeRow (tz ms : Int) : TimeRow :=
  ⟨ms, ms, hourOf tz ms, dayOf tz ms, weekOf tz ms, monthOf tz ms, yearOf tz ms, weekdayOf tz ms⟩

/-- `time_table`: decompose every enriched event, then
`dropDuplicates(['datetime'])`. -/
def time_table (tz : Int) (es : List Enriched) : List TimeRow :=
  dedupBy (fun t => t.datetime) (es.map (fun e => mkTimeRow tz e.ms))

/-- The join condition
`(df.artist == song_df.artist_name) & (df.song == song_df.title)`.
In Spark a comparison against a null `artist`/`song` is null, hence not
satisfied, which the `Option` equality reproduces. -/
def matchesSong (e : LogRecord) (s : SongRecord) : Bool :=
  e.artist == some s.artist_name && e.song == some s.title

/-- A songplays row before the surrogate key is attached: the columns of
the final `select`, with `start_time` carried as the epoch milliseconds
rendering the `datetime` string.  `year` is resolved from the joined
frame's only `year` column — the catalog song's year — while `month` was
recomputed from `datetime` by the preceding `withColumn`. -/
structure SongplayRow where
  start_time : Int
  user_id : String
  level : String
  song_id : String
  artist_id : String
  session_id : String
  loc : String
  user_agent : String
  year : Int
  month : Int
  deriving DecidableEq, Repr

/-- The songplays columns produced by joining one enriched event to one
matching catalog record. -/
def mkSongplay (tz : Int) (e : Enriched) (s : SongRecord) : SongplayRow :=
  ⟨e.ms, e.base.userId, e.base.level, s.song_id, s.artist_id,
   e.base.sessionId, e.base.loc, e.base.userAgent, s.year, monthOf tz e.ms⟩

/-- The fact rows one enriched event contributes: one per catalog record
satisfying the join condition. -/
def rowsForEvent (tz : Int) (catalog : List SongRecord) (e : Enriched) : List SongplayRow :=
  (catalog.filter (fun s => matchesSong e.base s)).map (mkSongplay tz e)

/-- The inner join of the enriched events with the catalog, projected to
the songplays columns. -/
def songplaysRaw (tz : Int) (es : List Enriched) (catalog : List SongRecord) : List SongplayRow :=
  es.flatMap (rowsForEvent tz catalog)

/-- Spark's `monotonically_increasing_id`: partition index in the upper
bits, row index within the partition in the lower 33 bits. -/
def monotonicallyIncreasingId (partIdx rowIdx : Nat) : Nat :=
  partIdx * 2 ^ 33 + rowIdx

/-- Attach `monotonically_increasing_id` values to a partitioned dataset,
numbering partitions from `p`. -/
def assignIdsFrom {α : Type} (p : Nat) : List (List α) → List (Nat × α)
  | [] => []
  | part :: parts =>
    part.enum.map (fun q => (monotonicallyIncreasingId p q.1, q.2)) ++ assignIdsFrom (p + 1) parts

/-- Attach `monotonically_increasing_id` values to a partitioned dataset. -/
def assignIds {α : Type} (parts : List (List α)) : List (Nat × α) :=
  assignIdsFrom 0 parts

/-- `songplays_table`: join, add the `month` and `songplay_id` columns,
and select.  The joined rows sit in engine-chosen partitions; the embedding
exposes that as a single partition holding the join output in order. -/
def songplays_table (tz : Int) (es : List Enriched) (catalog : List SongRecord) :
    List (Nat × SongplayRow) :=
  assignIds [songplaysRaw tz es catalog]

/-- `time_table.write.partitionBy('year', 'month').parquet(...)`. -/
def timeWrite (tz : Int) (es : List Enriched) : Write TimeRow :=
  ⟨"time/time.parquet", ["year", "month"], time_table tz es⟩

/-- `users_table.write.parquet(...)` (no `partitionBy`). -/
def usersWrite (logs : List LogRecord) : Write UserRow :=
  ⟨"users/users.parquet", [], users_table logs⟩

/-- `songplays_table.write.partitionBy('year', 'month').parquet(...)`. -/
def songplaysWrite (tz : Int) (es : List Enriched) (catalog : List SongRecord) :
    Write (Nat × SongplayRow) :=
  ⟨"songplays/songplays.parquet", ["year", "month"], songplays_table tz es catalog⟩

/-- The three writes `process_log_data` performs. -/
structure LogOutput where
  users : Write UserRow
  time : Write TimeRow
  songplays : Write (Nat × SongplayRow)
  deriving DecidableEq, Repr

/-- `process_log_data`: read the events, filter to NextSong, write the users
table, enrich the filtered frame with the timestamp udfs (whose failure
aborts the run), write the time table, join with the catalog and write the
songplays table. -/
def process_log_data (tz : Int) (catalog : List SongRecord) (logs : List LogRecord) :
    Except String LogOutput :=
  match enrich (filterNextSong logs) with
  | .ok es => .ok ⟨usersWrite logs, timeWrite tz es, songplaysWrite tz es catalog⟩
  | .error msg => .error msg

/-! ### Helper lemmas about deduplication -/

theorem mem_dedupByAux {α κ : Type} [DecidableEq κ] (key : α → κ) :
    ∀ (l : List α) (seen : List κ) (x : α),
      x ∈ dedupByAux key seen l ↔
        key x ∉ seen ∧ l.find? (fun y => decide (key y = key x)) = some x
  | [], seen, x => by simp [dedupByAux]
  | a :: l, seen, x => by
    by_cases hax : key a = key x
    · rw [dedupByAux, List.find?_cons_of_pos (p := fun y => decide (key y = key x)) _ (decide_eq_true hax)]
      by_cases ha : key a ∈ seen
      · rw [if_pos ha]
        have hx : key x ∈ seen := hax ▸ ha
        exact iff_of_false (fun h => ((mem_dedupByAux key l seen x).mp h).1 hx)
          (fun h => h.1 hx)
      · rw [if_neg ha]
        have hx : key x ∉ seen := fun h => ha (hax ▸ h)
        constructor
        · intro h
          rcases List.mem_cons.mp h with rfl | h2
          · exact ⟨hx, rfl⟩
          · have hmem : key x ∈ key a :: seen := by
              rw [← hax]; exact List.mem_cons_self _ _
            exact absurd hmem ((mem_dedupByAux key l (key a :: seen) x).mp h2).1
        · rintro ⟨_, h⟩
          cases Option.some.inj h
          exact List.mem_cons_self _ _
    · rw [dedupByAux, List.find?_cons_of_neg (p := fun y => decide (key y = key x)) _ (by simpa using hax)]
      by_cases ha : key a ∈ seen
      · rw [if_pos ha]; exact mem_dedupByAux key l seen x
      · rw [if_neg ha]
        rw [List.mem_cons, mem_dedupByAux key l (key a :: seen) x]
        constructor
        · rintro (rfl | ⟨hn, hf⟩)
          · exact absurd rfl hax
          · exact ⟨fun h => hn (List.mem_cons_of_mem _ h), hf⟩
        · rintro ⟨hn, hf⟩
          refine Or.inr ⟨?_, hf⟩
          intro h
          rcases List.mem_cons.mp h with h1 | h1
          · exact hax h1.symm
          · exact hn h1

theorem mem_dedupBy {α κ : Type} [DecidableEq κ] (key : α → κ) (l : List α) (x : α) :
    x ∈ dedupBy key l ↔ l.find? (fun y => decide (key y = key x)) = some x := by
  rw [dedupBy, mem_dedupByAux]
  simp

theorem mem_of_mem_dedupBy {α κ : Type} [DecidableEq κ] {key : α → κ} {l : List α} {x : α}
    (h : x ∈ dedupBy key l) : x ∈ l :=
  List.mem_of_find?_eq_some ((mem_dedupBy key l x).mp h)

theorem dedupByAux_pairwise {α κ : Type} [DecidableEq κ] (key : α → κ) :
    ∀ (l : List α) (seen : List κ),
      (dedupByAux key seen l).Pairwise (fun a b => key a ≠ key b)
  | [], _ => List.Pairwise.nil
  | a :: l, seen => by
    simp only [dedupByAux]
    by_cases ha : key a ∈ seen
    · rw [if_pos ha]; exact dedupByAux_pairwise key l seen
    · rw [if_neg ha]
      refine List.Pairwise.cons (fun b hb => ?_) (dedupByAux_pairwise key l (key a :: seen))
      have hb1 := ((mem_dedupByAux key l (key a :: seen) b).mp hb).1
      intro hk
      exact hb1 (by rw [← hk]; exact List.mem_cons_self _ _)

theorem dedupBy_pairwise {α κ : Type} [DecidableEq κ] (key : α → κ) (l : List α) :
    (dedupBy key l).Pairwise (fun a b => key a ≠ key b) :=
  dedupByAux_pairwise key l []

/-! ### Helper lemmas about enrichment -/

theorem enrichOne_ok {r : LogRecord} {e : Enriched} (h : enrichOne r = .ok e) :
    parsePyInt r.ts = some e.ms ∧ e.base = r := by
  unfold enrichOne at h
  cases hp : parsePyInt r.ts with
  | none => rw [hp] at h; exact absurd h (by simp)
  | some m =>
    rw [hp] at h
    cases h
    exact ⟨rfl, rfl⟩

theorem enrich_ok_mem : ∀ (l : List LogRecord) (es : List Enriched),
    enrich l = .ok es → ∀ e ∈ es, ∃ r ∈ l, enrichOne r = .ok e
  | [], es, h, e, he => by
    simp only [enrich] at h
    cases h
    simp at he
  | a :: l, es, h, e, he => by
    simp only [enrich] at h
    cases ha : enrichOne a with
    | error msg => rw [ha] at h; exact absurd h (by simp)
    | ok e0 =>
      rw [ha] at h
      cases hl : enrich l with
      | error msg => rw [hl] at h; exact absurd h (by simp)
      | ok es0 =>
        rw [hl] at h
        cases h
        rcases List.mem_cons.mp he with rfl | he2
        · exact ⟨a, List.mem_cons_self _ _, ha⟩
        · rcases enrich_ok_mem l es0 hl e he2 with ⟨r, hr, hre⟩
          exact ⟨r, List.mem_cons_of_mem _ hr, hre⟩

theorem enrich_error_of_mem : ∀ (l : List LogRecord) (r : LogRecord),
    r ∈ l → parsePyInt r.ts = none → ∃ msg, enrich l = .error msg
  | [], r, hr, _ => absurd hr (List.not_mem_nil r)
  | a :: l, r, hr, hts => by
    simp only [enrich]
    rcases List.mem_cons.mp hr with rfl | h2
    · rw [show enrichOne r = .error "invalid ts" by simp [enrichOne, hts]]
      exact ⟨"invalid ts", rfl⟩
    · cases ha : enrichOne a with
      | error msg => exact ⟨msg, rfl⟩
      | ok e0 =>
        rcases enrich_error_of_mem l r h2 hts with ⟨msg, hmsg⟩
        rw [hmsg]
        exact ⟨msg, rfl⟩

/-! ### Helper lemmas about surrogate-key assignment -/

theorem assignIdsFrom_fst_ge {α : Type} : ∀ (parts : List (List α)) (p : Nat) (q : Nat × α),
    q ∈ assignIdsFrom p parts → p * 2 ^ 33 ≤ q.1
  | part :: parts, p, q, hq => by
    rcases List.mem_append.mp hq with h | h
    · rcases List.mem_map.mp h with ⟨⟨i, a⟩, _, rfl⟩
      exact Nat.le_add_right _ _
    · calc p * 2 ^ 33 ≤ (p + 1) * 2 ^ 33 := Nat.mul_le_mul_right _ (Nat.le_succ p)
        _ ≤ q.1 := assignIdsFrom_fst_ge parts (p + 1) q h

theorem assignIdsFrom_fst_cons {α : Type} (part : List α) (parts : List (List α)) (p : Nat) :
    (assignIdsFrom p (part :: parts)).map Prod.fst =
      (List.range part.length).map (fun i => monotonicallyIncreasingId p i) ++
        (assignIdsFrom (p + 1) parts).map Prod.fst := by
  simp only [assignIdsFrom, List.map_append, List.map_map]
  rw [show (Prod.fst ∘ fun q : Nat × α => (monotonicallyIncreasingId p q.1, q.2)) =
      (fun i => monotonicallyIncreasingId p i) ∘ Prod.fst from rfl, ← List.map_map,
    List.enum_map_fst]

theorem assignIdsFrom_pairwise {α : Type} : ∀ (parts : List (List α)) (p : Nat),
    (∀ part ∈ parts, part.length ≤ 2 ^ 33) →
    ((assignIdsFrom p parts).map Prod.fst).Pairwise (· < ·)
  | [], _, _ => by simp [assignIdsFrom]
  | part :: parts, p, h => by
    rw [assignIdsFrom_fst_cons, List.pairwise_append]
    refine ⟨?_, assignIdsFrom_pairwise parts (p + 1)
      (fun q hq => h q (List.mem_cons_of_mem _ hq)), ?_⟩
    · rw [List.pairwise_map]
      exact (List.pairwise_lt_range _).imp
        (fun hab => Nat.add_lt_add_left hab _)
    · intro a ha b hb
      rcases List.mem_map.mp ha with ⟨i, hi, rfl⟩
      rcases List.mem_map.mp hb with ⟨q, hq, rfl⟩
      have hlen : part.length ≤ 2 ^ 33 := h part (List.mem_cons_self _ _)
      calc monotonicallyIncreasingId p i = p * 2 ^ 33 + i := rfl
        _ < p * 2 ^ 33 + 2 ^ 33 :=
            Nat.add_lt_add_left (lt_of_lt_of_le (List.mem_range.mp hi) hlen) _
        _ = (p + 1) * 2 ^ 33 := (Nat.succ_mul p _).symm
        _ ≤ q.1 := assignIdsFrom_fst_ge parts (p + 1) q hq

theorem assignIdsFrom_fst_shape {α β : Type} : ∀ (ps : List (List α)) (qs : List (List β)) (p : Nat),
    ps.map List.length = qs.map List.length →
    (assignIdsFrom p ps).map Prod.fst = (assignIdsFrom p qs).map Prod.fst
  | [], [], _, _ => rfl
  | [], _ :: _, _, h => by simp at h
  | _ :: _, [], _, h => by simp at h
  | a :: ps, b :: qs, p, h => by
    simp only [List.map_cons, List.cons.injEq] at h
    rw [assignIdsFrom_fst_cons, assignIdsFrom_fst_cons, h.1,
      assignIdsFrom_fst_shape ps qs (p + 1) h.2]

/-! ### Concrete records used to instantiate the theorems -/

/-- The spec's example catalog entry: Tom Waits, "Earth Died Screaming". -/
def twCatalogEntry : SongRecord :=
  ⟨"S1", "Earth Died Screaming", "A1", 1992, "387.0", "Tom Waits", "", none, none⟩

/-- A NextSong event playing the example catalog entry at epoch-millis
1541121934796. -/
def twEvent : LogRecord :=
  ⟨"NextSong", "10", "Ada", "Lovelace", "F", "paid", some "1541121934796",
   some "Tom Waits", some "Earth Died Screaming", "42", "London, UK", "Mozilla/5.0"⟩

/-- The enrichment of `twEvent`. -/
def twEnriched : Enriched := ⟨twEvent, 1541121934796⟩

/-- The spec's no-match example: an event by an unknown band. -/
def unknownEvent : LogRecord :=
  { twEvent with artist := some "Unknown Band", song := some "Unknown Song" }

/-- The spec's filtering example: an event whose page is "Login". -/
def loginEvent : LogRecord :=
  { twEvent with page := "Login" }

/-- A NextSong event whose `ts` is not parseable as an integer. -/
def badTsEvent : LogRecord :=
  { twEvent with ts := some "not-a-number" }

/-- A catalog song released in 1994, matching `ninetiesEvent`. -/
def ninetiesSong : SongRecord :=
  ⟨"S2", "Sabotage", "A2", 1994, "178.0", "Beastie Boys", "NYC", none, none⟩

/-- A NextSong event from November 2018 playing `ninetiesSong`. -/
def ninetiesEvent : LogRecord :=
  ⟨"NextSong", "11", "Grace", "Hopper", "F", "free", some "1541121934796",
   some "Beastie Boys", some "Sabotage", "7", "NYC", "agent"⟩

/-! ### Claims -/

/-- C1: the songplays table is the equality inner join of the enriched
events with the catalog on `(artist = artist_name, song = title)`: the fact
rows are exactly the per-event rows for each event in order; an event whose
pair matches exactly one catalog entry with song_id `S` and artist_id `A`
yields exactly one row, carrying `song_id = S` and `artist_id = A`; an
event matching no catalog entry yields no row. -/
theorem c1_inner_join_semantics (tz : Int) (catalog : List SongRecord)
    (e : Enriched) (es : List Enriched) :
    songplaysRaw tz es catalog = es.flatMap (rowsForEvent tz catalog) ∧
    (∀ s : SongRecord, catalog.filter (fun s2 => matchesSong e.base s2) = [s] →
      rowsForEvent tz catalog e = [mkSongplay tz e s] ∧
      (mkSongplay tz e s).song_id = s.song_id ∧
      (mkSongplay tz e s).artist_id = s.artist_id) ∧
    ((∀ s ∈ catalog, matchesSong e.base s = false) →
      rowsForEvent tz catalog e = []) := by
  refine ⟨rfl, fun s h => ?_, fun h => ?_⟩
  · rw [rowsForEvent, h]
    exact ⟨rfl, rfl, rfl⟩
  · rw [rowsForEvent, List.filter_eq_nil_iff.mpr (fun s hs => by simp [h s hs]), List.map_nil]

/-- Witness for C1 at the spec's concrete examples: the Tom Waits event
matched against a one-entry catalog yields exactly one row with
`song_id = "S1"`, `artist_id = "A1"`; the Unknown Band event yields none. -/
theorem c1_witness :
    rowsForEvent 0 [twCatalogEntry] twEnriched =
        [mkSongplay 0 twEnriched twCatalogEntry] ∧
    (mkSongplay 0 twEnriched twCatalogEntry).song_id = "S1" ∧
    (mkSongplay 0 twEnriched twCatalogEntry).artist_id = "A1" ∧
    rowsForEvent 0 [twCatalogEntry] ⟨unknownEvent, 1541121934796⟩ = [] := by
  have h1 := (c1_inner_join_semantics 0 [twCatalogEntry] twEnriched []).2.1
    twCatalogEntry (by decide)
  have h2 := (c1_inner_join_semantics 0 [twCatalogEntry]
    ⟨unknownEvent, 1541121934796⟩ []).2.2 (by decide)
  exact ⟨h1.1, h1.2.1, h1.2.2, h2⟩

/-- C10: an event whose pair matches `k` catalog records contributes exactly
`k` songplay rows: the join deduplicates by neither side's key, so the
number of fact rows per event equals the number of matching catalog
entries. -/
theorem c10_join_multiplicity (tz : Int) (catalog : List SongRecord)
    (e : Enriched) (es : List Enriched) :
    (rowsForEvent tz catalog e).length =
      (catalog.filter (fun s => matchesSong e.base s)).length ∧
    songplaysRaw tz (e :: es) catalog =
      rowsForEvent tz catalog e ++ songplaysRaw tz es catalog := by
  constructor
  · exact List.length_map _ _
  · simp [songplaysRaw]

/-- C2: each dimension table is key-unique after deduplication: no two song
rows share a `song_id`, no two artist rows share an `artist_id`, no two
user rows share a `(userId, level)` pair, and no two time rows share a
`start_time`. -/
theorem c2_dedup_key_uniqueness (recs : List SongRecord) (logs : List LogRecord)
    (tz : Int) (es : List Enriched) :
    (songs_table recs).Pairwise (fun a b => a.song_id ≠ b.song_id) ∧
    (artists_table recs).Pairwise (fun a b => a.artist_id ≠ b.artist_id) ∧
    (users_table logs).Pairwise (fun a b => (a.userId, a.level) ≠ (b.userId, b.level)) ∧
    (time_table tz es).Pairwise (fun a b => a.start_time ≠ b.start_time) := by
  refine ⟨dedupBy_pairwise _ _, dedupBy_pairwise _ _, dedupBy_pairwise _ _, ?_⟩
  have hst : ∀ r ∈ time_table tz es, r.start_time = r.datetime := by
    intro r hr
    rcases List.mem_map.mp (mem_of_mem_dedupBy hr) with ⟨e, _, rfl⟩
    rfl
  have hp := dedupBy_pairwise (fun t : TimeRow => t.datetime)
    (es.map (fun e => mkTimeRow tz e.ms))
  exact hp.imp_of_mem (fun ha hb h => by rw [hst _ ha, hst _ hb]; exact h)

/-- C3: every time-table row is the civil decomposition of the floor of
`ts / 1000` (with `ts` parsed from the event by Python `int`) under the
run's fixed timezone offset; the `weekday` column always lies in the fixed
1–7 convention; and epoch-millis 1541121934796 decomposes under the UTC
policy (`tz = 0`) to 2018-11-02, hour 1, ISO week 44, month 11, weekday 6
(Friday in the 1 = Sunday convention). -/
theorem c3_time_decomposition (tz m : Int) :
    (∀ (logs : List LogRecord) (es : List Enriched) (row : TimeRow),
      enrich (filterNextSong logs) = .ok es → row ∈ time_table tz es →
      ∃ r ∈ filterNextSong logs, parsePyInt r.ts = some row.datetime ∧
        row = mkTimeRow tz row.datetime) ∧
    (1 ≤ (mkTimeRow tz m).weekday ∧ (mkTimeRow tz m).weekday ≤ 7) ∧
    mkTimeRow 0 1541121934796 =
      ⟨1541121934796, 1541121934796, 1, 2, 44, 11, 2018, 6⟩ := by
  refine ⟨fun logs es row hok hrow => ?_, ?_, by decide⟩
  · rcases List.mem_map.mp (mem_of_mem_dedupBy hrow) with ⟨e, he, rfl⟩
    rcases enrich_ok_mem _ _ hok e he with ⟨r, hr, hre⟩
    rcases enrichOne_ok hre with ⟨hts, _⟩
    exact ⟨r, hr, hts, rfl⟩
  · have h0 : (0 : Int) ≤ Int.emod (epochDayOf tz m + 4) 7 :=
      Int.emod_nonneg _ (by norm_num)
    have h7 : Int.emod (epochDayOf tz m + 4) 7 < 7 :=
      Int.emod_lt_of_pos _ (by norm_num)
    constructor
    · show 1 ≤ weekdayOf tz m
      unfold weekdayOf
      omega
    · show weekdayOf tz m ≤ 7
      unfold weekdayOf
      omega

/-- Witness for C3: at the Tom Waits event, the time-table row for
epoch-millis 1541121934796 is derived by parsing `ts` and decomposing it. -/
theorem c3_witness :
    ∃ r ∈ filterNextSong [twEvent],
      parsePyInt r.ts = some (mkTimeRow 0 1541121934796).datetime ∧
      mkTimeRow 0 1541121934796 = mkTimeRow 0 (mkTimeRow 0 1541121934796).datetime :=
  (c3_time_decomposition 0 0).1 [twEvent] [twEnriched] (mkTimeRow 0 1541121934796)
    (by rfl) (by decide)

/-- C4 (documents a code bug): the `month` column of every songplay row is
recomputed from the event's derived timestamp, but the `year` column is the
joined catalog song's release year — the only `year` column in the joined
frame — not the year of the event's timestamp.  At the failing input (an
event of 2018-11-02 playing a song released in 1994) the row and its
partition carry `year = 1994` while the event's timestamp year is 2018. -/
theorem c4_songplay_year_is_song_year :
    (∀ (tz : Int) (e : Enriched) (s : SongRecord),
      (mkSongplay tz e s).year = s.year ∧
      (mkSongplay tz e s).month = monthOf tz e.ms) ∧
    (mkSongplay 0 ⟨ninetiesEvent, 1541121934796⟩ ninetiesSong).year = 1994 ∧
    yearOf 0 1541121934796 = 2018 ∧
    (mkSongplay 0 ⟨ninetiesEvent, 1541121934796⟩ ninetiesSong).month = 11 ∧
    monthOf 0 1541121934796 = 11 := by
  exact ⟨fun tz e s => ⟨rfl, rfl⟩, rfl, by decide, by decide, by decide⟩

/-- C5: a record whose `page` is not "NextSong" contributes nothing: the
whole of `process_log_data` (users, time and songplays writes alike) is
unchanged when such a record is removed from the input. -/
theorem c5_filter_nextsong (tz : Int) (catalog : List SongRecord)
    (logs1 logs2 : List LogRecord) (r : LogRecord) (h : r.page ≠ "NextSong") :
    process_log_data tz catalog (logs1 ++ r :: logs2) =
      process_log_data tz catalog (logs1 ++ logs2) := by
  have hb : (r.page == "NextSong") = false := by
    simp [h]
  have hf : filterNextSong (logs1 ++ r :: logs2) = filterNextSong (logs1 ++ logs2) := by
    unfold filterNextSong
    rw [List.filter_append, List.filter_append, List.filter_cons, hb]
    simp
  simp only [process_log_data, usersWrite, users_table, hf]

/-- Witness for C5: a "Login" event contributes to none of the outputs. -/
theorem c5_witness :
    process_log_data 0 [twCatalogEntry] [loginEvent, twEvent] =
      process_log_data 0 [twCatalogEntry] [twEvent] :=
  c5_filter_nextsong 0 [twCatalogEntry] [] [twEvent] loginEvent (by decide)

/-- C6: the surrogate `songplay_id` values assigned over the partitioned
join output are strictly increasing across the table in partition order
(hence unique across the whole table) whenever each partition holds at most
2^33 rows, and they are generated independently of the rows' contents: any
two partitionings of equal shape receive identical id sequences.  The
songplays table is this assignment applied to the join output. -/
theorem c6_songplay_id_properties (parts : List (List SongplayRow))
    (h : ∀ part ∈ parts, part.length ≤ 2 ^ 33) :
    ((assignIds parts).map Prod.fst).Pairwise (· < ·) ∧
    (∀ parts2 : List (List SongplayRow),
      parts.map List.length = parts2.map List.length →
      (assignIds parts).map Prod.fst = (assignIds parts2).map Prod.fst) ∧
    (∀ (tz : Int) (es : List Enriched) (catalog : List SongRecord),
      songplays_table tz es catalog = assignIds [songplaysRaw tz es catalog]) := by
  exact ⟨assignIdsFrom_pairwise parts 0 h,
    fun parts2 hshape => assignIdsFrom_fst_shape parts parts2 0 hshape,
    fun tz es catalog => rfl⟩

/-- Witness for C6: two partitions of one and two rows receive the strictly
increasing, non-contiguous ids 0, 1, 2^33. -/
theorem c6_witness :
    ((assignIds [[mkSongplay 0 twEnriched twCatalogEntry,
        mkSongplay 0 ⟨ninetiesEvent, 1541121934796⟩ ninetiesSong],
      [mkSongplay 0 twEnriched twCatalogEntry]]).map Prod.fst).Pairwise (· < ·) ∧
    ((assignIds [[mkSongplay 0 twEnriched twCatalogEntry,
        mkSongplay 0 ⟨ninetiesEvent, 1541121934796⟩ ninetiesSong],
      [mkSongplay 0 twEnriched twCatalogEntry]]).map Prod.fst) = [0, 1, 2 ^ 33] := by
  refine ⟨(c6_songplay_id_properties _ (by decide)).1, by decide⟩

/-- C7: the five writes carry the source's partitioning scheme — songs by
(year, artist_id), time and songplays by (year, month), artists and users
unpartitioned — and partitioning is consistent with row data: every songs
row landing in the partition directory for `(year = 2018, artist_id = "A1")`
has those values in its columns. -/
theorem c7_partitioning_scheme (recs : List SongRecord) (logs : List LogRecord)
    (tz : Int) (es : List Enriched) (catalog : List SongRecord) :
    (songsWrite recs).partitionCols = ["year", "artist_id"] ∧
    (artistsWrite recs).partitionCols = [] ∧
    (usersWrite logs).partitionCols = [] ∧
    (timeWrite tz es).partitionCols = ["year", "month"] ∧
    (songplaysWrite tz es catalog).partitionCols = ["year", "month"] ∧
    (∀ r : SongRow,
      r ∈ partitionRows (fun q => (q.year, q.artist_id)) ((2018 : Int), "A1") (songsWrite recs) →
      r.year = 2018 ∧ r.artist_id = "A1") := by
  refine ⟨rfl, rfl, rfl, rfl, rfl, fun r hr => ?_⟩
  rw [partitionRows, List.mem_filter] at hr
  have h2 := hr.2
  simp only [decide_eq_true_eq] at h2
  exact ⟨congrArg Prod.fst h2, congrArg Prod.snd h2⟩

/-- A 2018 catalog record by artist "A1", for the C7 witness. -/
def song2018 : SongRecord :=
  ⟨"S3", "Seventeen", "A1", 2018, "223.0", "Sharon Van Etten", "", none, none⟩

/-- Witness for C7: with a concrete catalog, the row in the songs partition
`(2018, "A1")` indeed carries those column values. -/
theorem c7_witness :
    (songsWrite [song2018]).partitionCols = ["year", "artist_id"] ∧
    (projSong song2018).year = 2018 ∧ (projSong song2018).artist_id = "A1" := by
  have h := c7_partitioning_scheme [song2018] [] 0 [] []
  exact ⟨h.1, h.2.2.2.2.2 (projSong song2018) (by decide)⟩

/-- C8 counterexample: on an input whose second NextSong record has an
unparseable `ts`, `process_log_data` aborts with an error instead of
skipping the record — the claim's skip-and-continue policy is false of the
code. -/
theorem c8_counterexample :
    process_log_data 0 [] [twEvent, badTsEvent] = .error "invalid ts" := by
  rfl

/-- C8 as amended: a filtered event whose `ts` cannot be parsed as an
integer causes the whole `process_log_data` run to fail with an error (after
only the users write); the record is not skipped and no later record is
processed. -/
theorem c8_abort_on_malformed_ts (tz : Int) (catalog : List SongRecord)
    (logs : List LogRecord) (r : LogRecord) (hr : r ∈ filterNextSong logs)
    (hts : parsePyInt r.ts = none) :
    ∃ msg, process_log_data tz catalog logs = .error msg := by
  rcases enrich_error_of_mem _ r hr hts with ⟨msg, hmsg⟩
  exact ⟨msg, by rw [process_log_data, hmsg]⟩

/-- Witness for C8: the bad-timestamp event aborts a concrete run. -/
theorem c8_witness :
    ∃ msg, process_log_data 0 [] [twEvent, badTsEvent] = .error msg :=
  c8_abort_on_malformed_ts 0 [] [twEvent, badTsEvent] badTsEvent
    (by decide) (by decide)

/-- C9: the pipeline is deterministic — equal inputs give equal outputs for
both `process_song_data` and `process_log_data` — and every deduplication
step has a deterministic survivor rule: a row is in the deduplicated table
exactly when it is the first row of the input carrying its key, for each of
the four deduplications the pipeline performs. -/
theorem c9_determinism_and_survivor_rule :
    (∀ (recs recs2 : List SongRecord) (logs logs2 : List LogRecord) (tz : Int),
      recs = recs2 → logs = logs2 →
      process_song_data recs = process_song_data recs2 ∧
      process_log_data tz recs logs = process_log_data tz recs2 logs2) ∧
    (∀ (recs : List SongRecord) (x : SongRow),
      x ∈ songs_table recs ↔
        (recs.map projSong).find? (fun y => decide (y.song_id = x.song_id)) = some x) ∧
    (∀ (recs : List SongRecord) (x : ArtistRow),
      x ∈ artists_table recs ↔
        (recs.map projArtist).find? (fun y => decide (y.artist_id = x.artist_id)) = some x) ∧
    (∀ (logs : List LogRecord) (x : UserRow),
      x ∈ users_table logs ↔
        ((filterNextSong logs).map projUser).find?
          (fun y => decide ((y.userId, y.level) = (x.userId, x.level))) = some x) ∧
    (∀ (tz : Int) (es : List Enriched) (x : TimeRow),
      x ∈ time_table tz es ↔
        (es.map (fun e => mkTimeRow tz e.ms)).find?
          (fun y => decide (y.datetime = x.datetime)) = some x) := by
  refine ⟨fun recs recs2 logs logs2 tz h1 h2 => ?_,
    fun recs x => mem_dedupBy _ _ _, fun recs x => mem_dedupBy _ _ _,
    fun logs x => mem_dedupBy _ _ _, fun tz es x => mem_dedupBy _ _ _⟩
  subst h1
  subst h2
  exact ⟨rfl, rfl⟩

/-- Witness for C9: reruns on a fixed concrete input coincide. -/
theorem c9_witness :
    process_song_data [twCatalogEntry] = process_song_data [twCatalogEntry] ∧
    process_log_data 0 [twCatalogEntry] [twEvent] =
      process_log_data 0 [twCatalogEntry] [twEvent] :=
  c9_determinism_and_survivor_rule.1 [twCatalogEntry] [twCatalogEntry]
    [twEvent] [twEvent] 0 rfl rfl

end ETL
